import Mathlib

/- Verification of the MTG price-finder card-search core (App.tsx):
   store registry, resilient fetcher, store query adapter, single-card
   search orchestrator, batch search orchestrator.

   Strings are Lean strings; the JavaScript string operations used by the
   code (trim, toLowerCase, includes, the trailing-slash regex replace)
   are embedded as functions on the underlying character lists so that
   they evaluate by kernel reduction.  JavaScript numbers (the parsed
   price fields) are embedded as rationals.  Network effects are made
   explicit: each component takes the outcome of its network calls as an
   argument, and side effects (requests issued, waits, progress
   publications) are returned as explicit event traces. -/

namespace MtgSearch

/-- Embeds JavaScript `String.prototype.toLowerCase` (ASCII case mapping,
which is all the card names and product titles exercise). -/
def lowerStr (s : String) : String :=
  String.mk (s.data.map Char.toLower)

/-- Embeds JavaScript `String.prototype.trim`: strip leading and trailing
whitespace. -/
def jsTrim (s : String) : String :=
  String.mk (((s.data.dropWhile Char.isWhitespace).reverse.dropWhile
    Char.isWhitespace).reverse)

/-- Embeds JavaScript `String.prototype.includes`: substring containment. -/
def strIncludes (hay needle : String) : Bool :=
  decide (needle.data <:+: hay.data)

/-- JavaScript truthiness of an optional string: `undefined`/`null` and the
empty string are falsy.  Returns the string when it is truthy. -/
def jsStrTruthy (o : Option String) : Option String :=
  o.bind fun s => if s.data.isEmpty then none else some s

/-- Embeds the JavaScript idiom `x || d` for an optional string `x` and a
default `d`. -/
def jsStrOr (o : Option String) (d : String) : String :=
  (jsStrTruthy o).getD d

/-- Embeds `store.url.replace(/\/$/, '')`: removes a single trailing
slash when present. -/
def stripTrailingSlash (u : String) : String :=
  if u.data.getLast? = some '/' then String.mk u.data.dropLast else u

/- ------------------------------------------------------------------
   Resilient fetcher: `fetchWithRetry` (part_000 lines 87-109).
   ------------------------------------------------------------------ -/

/-- Observable network events of one `fetchWithRetry` call: a request for
a given attempt number, or a backoff wait of a given number of
milliseconds. -/
inductive FetchEvent where
  | request : Nat → FetchEvent
  | wait : Nat → FetchEvent
deriving DecidableEq

/-- Result of one `fetchWithRetry` call: the parsed JSON payload of a
successful attempt, the thrown error of the last failed attempt, or
JavaScript `undefined` when the loop body never runs and the function
falls off the end. -/
inductive FetchOutcome (α ε : Type) where
  | success : α → FetchOutcome α ε
  | failure : ε → FetchOutcome α ε
  | undef : FetchOutcome α ε
deriving DecidableEq

/-- Loop body of `fetchWithRetry`.  `responses k` is the outcome the
network gives the request of attempt number `k`; `attempt` is the current
attempt number and `r + 1` the number of attempts still allowed, so the
current attempt is the last one exactly when `r = 0` (mirroring
`attempt === maxRetries`).  On a failed non-last attempt the code waits
`Math.pow(2, attempt - 1) * 1000` milliseconds and retries. -/
def fetchGo {α ε : Type} (responses : Nat → Except ε α) :
    Nat → Nat → List FetchEvent × FetchOutcome α ε
  | _, 0 => ([], .undef)
  | attempt, r + 1 =>
    match responses attempt with
    | .ok p => ([.request attempt], .success p)
    | .error e =>
      if r = 0 then ([.request attempt], .failure e)
      else
        let rest := fetchGo responses (attempt + 1) r
        (.request attempt :: .wait (2 ^ (attempt - 1) * 1000) :: rest.1, rest.2)

/-- Embeds `fetchWithRetry(url, maxRetries)`: the `for` loop runs attempts
`1 .. maxRetries`; when `maxRetries ≤ 0` the loop body never runs and the
function resolves to `undefined`. -/
def fetchWithRetry {α ε : Type} (responses : Nat → Except ε α)
    (maxRetries : Int) : List FetchEvent × FetchOutcome α ε :=
  fetchGo responses 1 maxRetries.toNat

/-- Number of requests in an event trace. -/
def requestCount (evs : List FetchEvent) : Nat :=
  evs.countP fun e => match e with | .request _ => true | .wait _ => false

/-- Wait durations (in milliseconds) of an event trace, in order. -/
def waitsOf (evs : List FetchEvent) : List Nat :=
  evs.filterMap fun e => match e with | .request _ => none | .wait ms => some ms

/-- Trace of `r` consecutive attempts starting at attempt number `a`, each
but the last followed by its exponential-backoff wait: this is the trace
the fetcher produces while attempts keep failing. -/
def backoffTrace : Nat → Nat → List FetchEvent
  | _, 0 => []
  | a, r + 1 =>
    FetchEvent.request a ::
      (if r = 0 then []
       else FetchEvent.wait (2 ^ (a - 1) * 1000) :: backoffTrace (a + 1) r)

/- ------------------------------------------------------------------
   Data model: store registry, storefront response shape, normalized
   results, search outcomes (part_000 lines 4-50).
   ------------------------------------------------------------------ -/

/-- Store descriptor from the fixed `stores` registry. -/
structure Store where
  name : String
  key : String
  url : String
  suggestApiUrl : String
deriving DecidableEq

/-- The fixed three-entry store registry of the source. -/
def stores : List Store :=
  [⟨"Players C&C", "playerscandc", "https://playerscandc.com/",
    "https://playerscandc.com/search/suggest.json?q={term}&resources[type]=product&resources[limit]=10&section_id=predictive-search"⟩,
   ⟨"Mana Lounge", "manalounge", "https://www.manalounge.ca/",
    "https://www.manalounge.ca/search/suggest.json?q={term}&resources[type]=product&resources[limit]=10&section_id=predictive-search"⟩,
   ⟨"Lamood Comics", "lamoodcomics", "https://lamoodcomics.ca/",
    "https://lamoodcomics.ca/search/suggest.json?q={term}&resources[type]=product&resources[limit]=10&section_id=predictive-search"⟩]

/-- One product record of a Shopify predictive-search response.  Every
field can be absent (`none`).  The string price fields are embedded as
their parsed numeric values (`parseFloat` of a price string), so
`price_min`/`price_max` hold rationals. -/
structure Product where
  available : Option Bool
  title : Option String
  price_min : Option ℚ
  price_max : Option ℚ
  url : Option String
  image : Option String
  featured_image_url : Option String
deriving DecidableEq

/-- The `resources.results` level of the response body. -/
structure ResultsObj where
  products : Option (List Product)
deriving DecidableEq

/-- The `resources` level of the response body. -/
structure ResourcesObj where
  results : Option ResultsObj
deriving DecidableEq

/-- A response body; `none` at any level models an absent or malformed
field along the `resources.results.products` path. -/
structure Body where
  resources : Option ResourcesObj
deriving DecidableEq

/-- Normalized card result (interface `CardResult`). -/
structure CardResult where
  store : String
  name : String
  priceMin : ℚ
  priceMax : ℚ
  availability : String
  url : String
  image : Option String
  condition : Option String
deriving DecidableEq

/-- Status of a card search outcome. -/
inductive SearchStatus where
  | found
  | not_found
  | no_inventory
deriving DecidableEq

/-- Card search outcome (interface `CardSearchResult`). -/
structure CardSearchResult where
  cardName : String
  status : SearchStatus
  results : List CardResult
deriving DecidableEq

/-- Embeds `data?.resources?.results?.products || []`: the product list at
the nested path, or the empty list when the body or any level of the path
is absent. -/
def extractProducts (b : Option Body) : List Product :=
  (((b.bind Body.resources).bind ResourcesObj.results).bind
    ResultsObj.products).getD []

/-- Products surviving the two filters of the store query (availability
flag strictly `true`, then case-insensitive title containment of the
queried card name), in response order. -/
def survivingProducts (cardName : String) (b : Option Body) : List Product :=
  ((extractProducts b).filter fun p => p.available == some true).filter
    fun p => strIncludes (lowerStr (jsStrOr p.title "")) (lowerStr cardName)

/-- Embeds the `.map` of the store query: one surviving product becomes
one normalized card result. -/
def normalizeProduct (store : Store) (p : Product) : CardResult :=
  ⟨store.name,
   jsStrOr p.title "Unknown Card",
   (p.price_min).getD 0,
   (p.price_max).getD 0,
   "In Stock",
   (match jsStrTruthy p.url with
    | some path => stripTrailingSlash store.url ++ path
    | none => store.url),
   (match jsStrTruthy p.image with
    | some i => some i
    | none => p.featured_image_url),
   some "NM"⟩

/-- Embeds the per-store arm of `searchSingleCard` (part_000 lines
170-204).  `fetched` is the awaited outcome of the `fetchWithRetry` call
for this store: a thrown error (including retry exhaustion) is caught by
the `catch` clause and becomes the empty list; `undefined` flows into the
`data?.` chain and also yields no products. -/
def queryStore (store : Store) (cardName : String)
    (fetched : FetchOutcome (Option Body) String) : List CardResult :=
  match fetched with
  | .failure _ => []
  | .undef => (survivingProducts cardName none).map (normalizeProduct store)
  | .success b => (survivingProducts cardName b).map (normalizeProduct store)

/-- Embeds `.sort((a, b) => a.priceMin - b.priceMin)`: JavaScript
`Array.prototype.sort` is specified to be stable, so the embedding is a
stable sort by minimum price. -/
def sortByPriceMin (l : List CardResult) : List CardResult :=
  l.insertionSort fun a b => a.priceMin ≤ b.priceMin

/-- Embeds `searchSingleCard` (part_000 lines 158-214).  `valid` is the
awaited result of `validateCardName`, `fetches` gives each store's fetch
outcome.  Returns the outcome together with the number of store queries
issued (the fan-out `stores.map` runs only when validation succeeded). -/
def searchSingleCard (cardName : String) (valid : Bool)
    (fetches : Store → FetchOutcome (Option Body) String) :
    CardSearchResult × Nat :=
  if valid = false then (⟨cardName, .not_found, []⟩, 0)
  else
    let flatResults := (stores.map fun s => queryStore s cardName (fetches s)).flatten
    (⟨cardName,
      if flatResults.length > 0 then .found else .no_inventory,
      sortByPriceMin flatResults⟩,
     stores.length)

/- ------------------------------------------------------------------
   Batch driver: the loop of `searchCards` (part_000 lines 216-248).
   ------------------------------------------------------------------ -/

/-- Observable events of the batch driver: the inter-card politeness
delay (milliseconds), the invocation of the single-card search for a
name, and a publication of the accumulated outcome list to observers
(the `setSearchResults([...results])` call). -/
inductive BatchEvent where
  | delay : Nat → BatchEvent
  | search : String → BatchEvent
  | publish : List CardSearchResult → BatchEvent
deriving DecidableEq

/-- Loop body of the batch driver: for each card after the first, wait
100 ms first; run the single-card search; append its outcome to the
accumulator; publish a copy of the accumulator before continuing.
`searchFn` is the (already network-resolved) single-card search. -/
def batchGo (searchFn : String → CardSearchResult)
    (acc : List CardSearchResult) (isFirst : Bool) :
    List String → List BatchEvent × List CardSearchResult
  | [] => ([], acc)
  | name :: rest =>
    let acc2 := acc ++ [searchFn name]
    let next := batchGo searchFn acc2 false rest
    ((if isFirst then [] else [.delay 100]) ++
      .search name :: .publish acc2 :: next.1, next.2)

/-- Embeds the sequential card loop of `searchCards`: cards are processed
strictly in input order, producing the event trace and the final result
list. -/
def searchCardsBatch (searchFn : String → CardSearchResult)
    (names : List String) : List BatchEvent × List CardSearchResult :=
  batchGo searchFn [] true names

/-- Search mode toggle of the UI. -/
inductive SearchMode where
  | single
  | list
deriving DecidableEq

/-- Embeds the computation of `cardsToSearch` (part_000 lines 217-219):
single mode wraps the trimmed search term in a one-element list (without
discarding an empty trim result); list mode splits the textarea contents
on newlines, trims each line and drops the empty ones. -/
def cardsToSearch (mode : SearchMode) (searchTerm cardList : String) :
    List String :=
  match mode with
  | .single => [jsTrim searchTerm]
  | .list =>
    ((cardList.data.splitOn '\n').map fun l => jsTrim (String.mk l)).filter
      fun c => c != ""

/-- Embeds the empty-input guard (part_000 lines 221-224): the
`please enter a card name` error banner is raised, and the batch skipped,
exactly when the card list is empty. -/
def emptyGuardFires (cards : List String) : Bool :=
  cards.length == 0

/-- Names passed to the single-card search, in trace order. -/
def searchesOf (evs : List BatchEvent) : List String :=
  evs.filterMap fun e =>
    match e with
    | .search n => some n
    | .delay _ => none
    | .publish _ => none

/-- Outcome lists published to observers, in trace order. -/
def publishesOf (evs : List BatchEvent) : List (List CardSearchResult) :=
  evs.filterMap fun e =>
    match e with
    | .publish outs => some outs
    | .delay _ => none
    | .search _ => none

/-- Expected batch schedule, following the specification's words: for
each card, a 100 ms pause unless it is the first card (no outcome
accumulated yet), then the single-card search invocation, then the
publication of the accumulated outcome sequence including the
just-finished card.  `done` is the accumulated outcome prefix. -/
def batchScheduleSpec (searchFn : String → CardSearchResult)
    (done : List CardSearchResult) : List String → List BatchEvent
  | [] => []
  | name :: rest =>
    (if done = [] then [] else [.delay 100]) ++
      .search name :: .publish (done ++ [searchFn name]) ::
        batchScheduleSpec searchFn (done ++ [searchFn name]) rest

/- ------------------------------------------------------------------
   Lemmas about the resilient fetcher.
   ------------------------------------------------------------------ -/

theorem requestCount_nil : requestCount [] = 0 := rfl

theorem requestCount_cons_request (a : Nat) (l : List FetchEvent) :
    requestCount (FetchEvent.request a :: l) = requestCount l + 1 := by
  simp [requestCount, List.countP_cons]

theorem requestCount_cons_wait (ms : Nat) (l : List FetchEvent) :
    requestCount (FetchEvent.wait ms :: l) = requestCount l := by
  simp [requestCount, List.countP_cons]

theorem waitsOf_cons_request (a : Nat) (l : List FetchEvent) :
    waitsOf (FetchEvent.request a :: l) = waitsOf l := by
  simp [waitsOf]

theorem waitsOf_cons_wait (ms : Nat) (l : List FetchEvent) :
    waitsOf (FetchEvent.wait ms :: l) = ms :: waitsOf l := by
  simp [waitsOf]

theorem backoffTrace_one (a : Nat) : backoffTrace a 1 = [.request a] := rfl

theorem backoffTrace_succ (a r : Nat) (h : r ≠ 0) :
    backoffTrace a (r + 1) =
      .request a :: .wait (2 ^ (a - 1) * 1000) :: backoffTrace (a + 1) r := by
  simp [backoffTrace, h]

theorem requestCount_backoffTrace (r a : Nat) :
    requestCount (backoffTrace a r) = r := by
  induction r generalizing a with
  | zero => rfl
  | succ r ih =>
    cases r with
    | zero => rfl
    | succ r' =>
      rw [backoffTrace_succ a (r' + 1) (Nat.succ_ne_zero r'),
        requestCount_cons_request, requestCount_cons_wait, ih (a + 1)]

theorem waitsOf_backoffTrace (r a : Nat) :
    waitsOf (backoffTrace a r) =
      (List.range' a (r - 1)).map fun k => 2 ^ (k - 1) * 1000 := by
  induction r generalizing a with
  | zero => rfl
  | succ r ih =>
    cases r with
    | zero => rfl
    | succ r' =>
      rw [backoffTrace_succ a (r' + 1) (Nat.succ_ne_zero r'),
        waitsOf_cons_request, waitsOf_cons_wait, ih (a + 1)]
      simp [List.range'_succ]

theorem fetchGo_ok {α ε : Type} (responses : Nat → Except ε α) (a r : Nat)
    (p : α) (h : responses a = .ok p) :
    fetchGo responses a (r + 1) = ([.request a], .success p) := by
  simp [fetchGo, h]

theorem fetchGo_err_last {α ε : Type} (responses : Nat → Except ε α) (a : Nat)
    (e : ε) (h : responses a = .error e) :
    fetchGo responses a 1 = ([.request a], .failure e) := by
  simp [fetchGo, h]

theorem fetchGo_err_step {α ε : Type} (responses : Nat → Except ε α) (a r : Nat)
    (e : ε) (h : responses a = .error e) (hr : r ≠ 0) :
    fetchGo responses a (r + 1) =
      (.request a :: .wait (2 ^ (a - 1) * 1000) :: (fetchGo responses (a + 1) r).1,
       (fetchGo responses (a + 1) r).2) := by
  simp [fetchGo, h, hr]

theorem fetchGo_requestCount_le {α ε : Type} (responses : Nat → Except ε α)
    (r a : Nat) : requestCount (fetchGo responses a r).1 ≤ r := by
  induction r generalizing a with
  | zero => simp [fetchGo, requestCount_nil]
  | succ r ih =>
    cases hresp : responses a with
    | ok p =>
      rw [fetchGo_ok responses a r p hresp]
      simp [requestCount, List.countP_cons]
    | error e =>
      cases r with
      | zero =>
        rw [fetchGo_err_last responses a e hresp]
        simp [requestCount, List.countP_cons]
      | succ r' =>
        rw [fetchGo_err_step responses a (r' + 1) e hresp (Nat.succ_ne_zero r')]
        simp only [requestCount_cons_request, requestCount_cons_wait]
        have := ih (a + 1)
        omega

theorem fetchGo_all_fail {α ε : Type} (responses : Nat → Except ε α)
    (errs : Nat → ε) (r a : Nat) (hr : 1 ≤ r)
    (hfail : ∀ k, a ≤ k → k < a + r → responses k = .error (errs k)) :
    fetchGo responses a r = (backoffTrace a r, .failure (errs (a + r - 1))) := by
  induction r generalizing a with
  | zero => omega
  | succ r ih =>
    have ha : responses a = .error (errs a) := hfail a (Nat.le_refl a) (by omega)
    cases r with
    | zero =>
      rw [fetchGo_err_last responses a _ ha]
      simp [backoffTrace_one]
    | succ r' =>
      have hrest := ih (a + 1) (by omega)
        (fun k hk1 hk2 => hfail k (by omega) (by omega))
      have hidx : a + 1 + (r' + 1) - 1 = a + (r' + 1 + 1) - 1 := by omega
      rw [fetchGo_err_step responses a (r' + 1) _ ha (Nat.succ_ne_zero r'), hrest,
        backoffTrace_succ a (r' + 1) (Nat.succ_ne_zero r')]
      simp [hidx]

theorem fetchGo_first_success {α ε : Type} (responses : Nat → Except ε α)
    (r a k : Nat) (p : α) (hak : a ≤ k) (hkr : k < a + r)
    (hfail : ∀ j, a ≤ j → j < k → ∃ e, responses j = .error e)
    (hok : responses k = .ok p) :
    fetchGo responses a r = (backoffTrace a (k - a + 1), .success p) := by
  induction r generalizing a with
  | zero => omega
  | succ r ih =>
    rcases Nat.eq_or_lt_of_le hak with hak1 | hak1
    · subst hak1
      rw [fetchGo_ok responses a r p hok]
      simp [Nat.sub_self, backoffTrace_one]
    · obtain ⟨e, he⟩ := hfail a (Nat.le_refl a) hak1
      cases r with
      | zero => omega
      | succ r' =>
        have hrest := ih (a + 1) (by omega) (by omega)
          (fun j hj1 hj2 => hfail j (by omega) hj2)
        have hka : k - a + 1 = (k - (a + 1) + 1) + 1 := by omega
        have hka0 : k - (a + 1) + 1 ≠ 0 := by omega
        have hka1 : k - (a + 1) + 1 = k - a := by omega
        rw [fetchGo_err_step responses a (r' + 1) e he (Nat.succ_ne_zero r'), hrest,
          hka, backoffTrace_succ a (k - (a + 1) + 1) hka0, hka1]


/- ------------------------------------------------------------------
   Claim theorems for the resilient fetcher.
   ------------------------------------------------------------------ -/

/-- C2: for every URL (modelled by its per-attempt network responses) and
every `maxAttempts ≥ 1`, the resilient fetcher makes at most `maxAttempts`
requests; if every request fails it makes exactly `maxAttempts` requests —
its trace is `backoffTrace 1 maxAttempts`, which contains `maxAttempts`
requests and waits of `2 ^ (attempt - 1)` seconds (1000 ms, 2000 ms,
4000 ms, …) between consecutive attempts — and surfaces the final
failure; if some attempt succeeds (all earlier ones having failed), it
returns that attempt's JSON payload and makes no further requests. -/
theorem fetchWithRetry_retry_contract {α ε : Type} (responses : Nat → Except ε α)
    (errs : Nat → ε) (n : Nat) (hn : 1 ≤ n) :
    requestCount (fetchWithRetry responses (n : Int)).1 ≤ n ∧
    requestCount (backoffTrace 1 n) = n ∧
    waitsOf (backoffTrace 1 n) =
      (List.range' 1 (n - 1)).map (fun k => 2 ^ (k - 1) * 1000) ∧
    ((∀ k, 1 ≤ k → k ≤ n → responses k = .error (errs k)) →
      fetchWithRetry responses (n : Int) = (backoffTrace 1 n, .failure (errs n))) ∧
    (∀ k p, 1 ≤ k → k ≤ n →
      (∀ j, 1 ≤ j → j < k → ∃ e, responses j = .error e) →
      responses k = .ok p →
      fetchWithRetry responses (n : Int) = (backoffTrace 1 k, .success p) ∧
        requestCount (backoffTrace 1 k) = k) := by
  have hcast : ((n : Int)).toNat = n := by omega
  refine ⟨?_, requestCount_backoffTrace n 1, waitsOf_backoffTrace n 1, ?_, ?_⟩
  · simp only [fetchWithRetry, hcast]
    exact fetchGo_requestCount_le responses n 1
  · intro hfail
    simp only [fetchWithRetry, hcast]
    have := fetchGo_all_fail responses errs n 1 hn
      (fun k hk1 hk2 => hfail k hk1 (by omega))
    simpa using this
  · intro k p hk1 hkn hfail hok
    refine ⟨?_, requestCount_backoffTrace k 1⟩
    simp only [fetchWithRetry, hcast]
    have := fetchGo_first_success responses n 1 k p hk1 (by omega) hfail hok
    have hk : k - 1 + 1 = k := by omega
    rwa [hk] at this

/-- Witness for C2: with 3 attempts allowed and an endpoint that always
fails, the fetcher produces the full backoff trace and the final failure;
with an endpoint failing twice then succeeding, it returns the success
payload of attempt 3. -/
theorem fetchWithRetry_retry_contract_witness :
    (1 ≤ 3) ∧
    fetchWithRetry (fun _ => (Except.error "down" : Except String Nat)) (3 : Int)
      = (backoffTrace 1 3, .failure "down") ∧
    fetchWithRetry
        (fun k => if k ≤ 2 then (Except.error "down" : Except String Nat)
                  else .ok 7) (3 : Int)
      = (backoffTrace 1 3, .success 7) :=
  ⟨by decide,
   (fetchWithRetry_retry_contract (fun _ => Except.error "down")
      (fun _ => "down") 3 (by decide)).2.2.2.1 (fun k hk1 hk2 => rfl),
   ((fetchWithRetry_retry_contract
      (fun k => if k ≤ 2 then (Except.error "down" : Except String Nat) else .ok 7)
      (fun _ => "down") 3 (by decide)).2.2.2.2 3 7 (by decide) (by decide)
      (fun j hj1 hj2 =>
        ⟨"down", by have hj : j ≤ 2 := by omega
                    simp [hj]⟩)
      rfl).1⟩

/-- C10: for every URL, calling the resilient fetcher with
`maxAttempts ≤ 0` makes the retry loop body never execute: no request is
issued and the call resolves to `undefined`, which is neither a JSON
payload nor a surfaced failure, so the declared `JSON or typed failure`
result shape does not hold at this boundary. -/
theorem fetchWithRetry_nonpositive_undef {α ε : Type}
    (responses : Nat → Except ε α) (m : Int) (hm : m ≤ 0) :
    fetchWithRetry responses m = ([], .undef) ∧
    (∀ p : α, (FetchOutcome.undef : FetchOutcome α ε) ≠ .success p) ∧
    (∀ e : ε, (FetchOutcome.undef : FetchOutcome α ε) ≠ .failure e) := by
  refine ⟨?_, fun p h => FetchOutcome.noConfusion h,
    fun e h => FetchOutcome.noConfusion h⟩
  have hz : m.toNat = 0 := by omega
  simp [fetchWithRetry, hz, fetchGo]

/-- Witness for C10: at `maxAttempts = -1` the fetcher issues no request
and resolves to `undefined`. -/
theorem fetchWithRetry_nonpositive_undef_witness :
    ((-1 : Int) ≤ 0) ∧
    fetchWithRetry (fun _ => (Except.error "down" : Except String Nat)) (-1)
      = ([], .undef) :=
  ⟨by decide,
   (fetchWithRetry_nonpositive_undef (fun _ => Except.error "down") (-1)
      (by decide)).1⟩

/- ------------------------------------------------------------------
   Lemmas about the stable price sort.
   ------------------------------------------------------------------ -/

theorem sortByPriceMin_perm (l : List CardResult) : (sortByPriceMin l).Perm l :=
  List.perm_insertionSort _ l

theorem sortByPriceMin_eq_nil_iff (l : List CardResult) :
    sortByPriceMin l = [] ↔ l = [] := by
  constructor
  · intro h
    have hperm := sortByPriceMin_perm l
    rw [h] at hperm
    exact hperm.nil_eq.symm
  · intro h
    subst h
    rfl

theorem filter_orderedInsert (key : CardResult → ℚ) (q : ℚ) (x : CardResult)
    (t : List CardResult) :
    (List.orderedInsert (fun a b => key a ≤ key b) x t).filter
        (fun r => decide (key r = q)) =
      if key x = q then
        x :: t.filter (fun r => decide (key r = q))
      else t.filter (fun r => decide (key r = q)) := by
  induction t with
  | nil =>
    by_cases hx : key x = q <;> simp [List.orderedInsert, hx]
  | cons b t ih =>
    by_cases hxb : key x ≤ key b
    · simp only [List.orderedInsert, if_pos hxb]
      by_cases hx : key x = q <;> simp [hx]
    · simp only [List.orderedInsert, if_neg hxb]
      have hbx : key b < key x := lt_of_not_le hxb
      by_cases hb : key b = q
      · have hx : ¬ key x = q := by
          rw [← hb]
          exact fun hxq => absurd hxq.symm (ne_of_lt hbx)
        simp [hb, hx, ih]
      · by_cases hx : key x = q <;> simp [hb, hx, ih]

theorem filter_insertionSort_key (key : CardResult → ℚ) (q : ℚ)
    (l : List CardResult) :
    (l.insertionSort (fun a b => key a ≤ key b)).filter
        (fun r => decide (key r = q)) =
      l.filter (fun r => decide (key r = q)) := by
  induction l with
  | nil => rfl
  | cons x l ih =>
    simp only [List.insertionSort]
    rw [filter_orderedInsert key q x]
    by_cases hx : key x = q <;> simp [hx, ih]

/- ------------------------------------------------------------------
   Claim theorems for the single-card orchestrator and store adapter.
   ------------------------------------------------------------------ -/

/-- C1: for every card name, the single-card search outcome has status
`not_found` iff validation returned `false` (and then its result list is
empty and zero store queries are issued); status `no_inventory` iff
validation returned `true` and the merged result list is empty; and
status `found` iff the merged result list is non-empty. -/
theorem searchSingleCard_status_characterization (cardName : String)
    (valid : Bool) (fetches : Store → FetchOutcome (Option Body) String) :
    ((searchSingleCard cardName valid fetches).1.status = .not_found ↔
      valid = false) ∧
    (valid = false →
      (searchSingleCard cardName valid fetches).1.results = [] ∧
      (searchSingleCard cardName valid fetches).2 = 0) ∧
    ((searchSingleCard cardName valid fetches).1.status = .no_inventory ↔
      (valid = true ∧ (searchSingleCard cardName valid fetches).1.results = [])) ∧
    ((searchSingleCard cardName valid fetches).1.status = .found ↔
      (searchSingleCard cardName valid fetches).1.results ≠ []) := by
  cases valid with
  | false => simp [searchSingleCard]
  | true =>
    simp only [searchSingleCard, Bool.true_eq_false, if_false]
    set flat := (stores.map fun s => queryStore s cardName (fetches s)).flatten
      with hflat
    by_cases hnil : flat = []
    · rw [hnil]
      simp [sortByPriceMin]
    · have hpos : flat.length > 0 := List.length_pos.mpr hnil
      have hsort : sortByPriceMin flat ≠ [] :=
        fun h => hnil ((sortByPriceMin_eq_nil_iff flat).mp h)
      simp [hpos, hsort]

/-- Witness for C1: with validation failed, the outcome has empty results
and zero store queries are issued. -/
theorem searchSingleCard_status_characterization_witness :
    (false = false) ∧
    (searchSingleCard "Lightning Bolt" false
      (fun _ => FetchOutcome.undef)).1.results = [] ∧
    (searchSingleCard "Lightning Bolt" false (fun _ => FetchOutcome.undef)).2 = 0 :=
  ⟨rfl, (searchSingleCard_status_characterization "Lightning Bolt" false
    (fun _ => FetchOutcome.undef)).2.1 rfl⟩

/-- C3: for every valid card name, the merged result list of the
single-card search is sorted ascending by minimum price, and results
with equal minimum price keep the order in which their stores appear in
the fixed store iteration order (the sort is stable, stated as: filtering
the sorted output at any given minimum price yields exactly the
corresponding filtering of the store-iteration-order concatenation); in
particular any three results with minimum prices 5.00, 1.50, 3.00 sort
to the order 1.50, 3.00, 5.00. -/
theorem searchSingleCard_sorted_and_stable (cardName : String)
    (fetches : Store → FetchOutcome (Option Body) String) :
    List.Pairwise (fun a b : CardResult => a.priceMin ≤ b.priceMin)
      (searchSingleCard cardName true fetches).1.results ∧
    (∀ q : ℚ,
      (searchSingleCard cardName true fetches).1.results.filter
          (fun r => decide (r.priceMin = q)) =
        ((stores.map fun s => queryStore s cardName (fetches s)).flatten).filter
          (fun r => decide (r.priceMin = q))) ∧
    (∀ a b c : CardResult,
      a.priceMin = 5 → b.priceMin = 1.5 → c.priceMin = 3 →
      sortByPriceMin [a, b, c] = [b, c, a]) := by
  have hres : (searchSingleCard cardName true fetches).1.results =
      sortByPriceMin
        ((stores.map fun s => queryStore s cardName (fetches s)).flatten) := by
    simp [searchSingleCard]
  refine ⟨?_, ?_, ?_⟩
  · rw [hres]
    haveI : IsTotal CardResult (fun a b => a.priceMin ≤ b.priceMin) :=
      ⟨fun a b => le_total a.priceMin b.priceMin⟩
    haveI : IsTrans CardResult (fun a b => a.priceMin ≤ b.priceMin) :=
      ⟨fun _ _ _ hab hbc => le_trans hab hbc⟩
    exact List.sorted_insertionSort _ _
  · intro q
    rw [hres]
    exact filter_insertionSort_key CardResult.priceMin q _
  · intro a b c ha hb hc
    have hbc : b.priceMin ≤ c.priceMin := by rw [hb, hc]; norm_num
    have hab : ¬ a.priceMin ≤ b.priceMin := by rw [ha, hb]; norm_num
    have hac : ¬ a.priceMin ≤ c.priceMin := by rw [ha, hc]; norm_num
    simp [sortByPriceMin, List.insertionSort, List.orderedInsert, hbc, hab, hac]

/-- Witness for C3: three concrete results with minimum prices 5.00,
1.50, 3.00 (in store-iteration order) sort to 1.50, 3.00, 5.00. -/
theorem searchSingleCard_sorted_and_stable_witness :
    sortByPriceMin
        [⟨"Players C&C", "Card A", 5, 5, "In Stock", "u", none, none⟩,
         ⟨"Mana Lounge", "Card B", 1.5, 2, "In Stock", "u", none, none⟩,
         ⟨"Lamood Comics", "Card C", 3, 3, "In Stock", "u", none, none⟩] =
      [⟨"Mana Lounge", "Card B", 1.5, 2, "In Stock", "u", none, none⟩,
       ⟨"Lamood Comics", "Card C", 3, 3, "In Stock", "u", none, none⟩,
       ⟨"Players C&C", "Card A", 5, 5, "In Stock", "u", none, none⟩] :=
  (searchSingleCard_sorted_and_stable "Card"
    (fun _ => FetchOutcome.undef)).2.2 _ _ _ rfl rfl rfl

/-- C4: for every store and response body, an absent `resources`,
`results` or `products` level of the nested path yields an empty result
list without raising; a thrown exception in one store's query (including
retry exhaustion, modelled by the `failure` fetch outcome) is converted
into an empty result list for that store; and replacing one store's
fetch outcome by a failure gives the same overall single-card search as
if that store had returned a body with no products — the other stores'
results and the overall search are unaffected. -/
theorem queryStore_failure_isolation (cardName : String) (s : Store)
    (e : String) :
    queryStore s cardName (.success none) = [] ∧
    queryStore s cardName (.success (some ⟨none⟩)) = [] ∧
    queryStore s cardName (.success (some ⟨some ⟨none⟩⟩)) = [] ∧
    queryStore s cardName (.success (some ⟨some ⟨some ⟨none⟩⟩⟩)) = [] ∧
    queryStore s cardName (.failure e) = [] ∧
    (∀ (valid : Bool) (fetches : Store → FetchOutcome (Option Body) String),
      searchSingleCard cardName valid
          (Function.update fetches s (.failure e)) =
        searchSingleCard cardName valid
          (Function.update fetches s (.success none))) := by
  refine ⟨rfl, rfl, rfl, rfl, rfl, ?_⟩
  intro valid fetches
  have hmap : ∀ st : Store,
      queryStore st cardName (Function.update fetches s (.failure e) st) =
        queryStore st cardName (Function.update fetches s (.success none) st) := by
    intro st
    by_cases hst : st = s
    · subst hst
      rw [Function.update_same, Function.update_same]
      rfl
    · rw [Function.update_noteq hst, Function.update_noteq hst]
  cases valid with
  | false => rfl
  | true =>
    simp only [searchSingleCard]
    rw [List.map_congr_left fun st _ => hmap st]

/-- C5: for every store response body, a product appears among the
products surviving the adapter's filters — whose normalized images form
the adapter's result list — iff it is in the extracted product list, its
availability flag equals `true`, and its (lower-cased) title contains the
(lower-cased) queried card name as a substring. -/
theorem queryStore_filter_characterization (cardName : String) (s : Store)
    (b : Option Body) :
    queryStore s cardName (.success b) =
      (survivingProducts cardName b).map (normalizeProduct s) ∧
    (∀ p : Product,
      p ∈ survivingProducts cardName b ↔
        (p ∈ extractProducts b ∧ p.available = some true ∧
          strIncludes (lowerStr (jsStrOr p.title "")) (lowerStr cardName)
            = true)) := by
  refine ⟨rfl, fun p => ?_⟩
  simp only [survivingProducts, List.mem_filter, beq_iff_eq, and_assoc]

/-- Counterexample to C7 as stated: the store query adapter does not
enforce `priceMin ≤ priceMax` (nor non-negativity); a store response
supplying `price_min = "5"` and `price_max = "2"` for an available,
title-matching product yields a normalized result violating the claimed
invariant. -/
theorem normalized_price_invariant_counterexample :
    ∃ r ∈ queryStore
        ⟨"Players C&C", "playerscandc", "https://playerscandc.com/", "t"⟩
        "Lightning Bolt"
        (.success (some ⟨some ⟨some ⟨some
          [⟨some true, some "Lightning Bolt", some 5, some 2,
            none, none, none⟩]⟩⟩⟩)),
      ¬ (0 ≤ r.priceMin ∧ r.priceMin ≤ r.priceMax) := by
  decide

/-- C7 amended: every normalized card result's minimum and maximum price
are exactly the store-supplied parsed values, defaulting to 0 when the
field is absent; consequently the result satisfies
`0 ≤ priceMin ≤ priceMax` whenever the supplied values do (in particular
when both fields are absent), but the adapter itself does not enforce
non-negativity or `min ≤ max`. -/
theorem normalized_price_defaults (s : Store) (p : Product) :
    (normalizeProduct s p).priceMin = (p.price_min).getD 0 ∧
    (normalizeProduct s p).priceMax = (p.price_max).getD 0 ∧
    (p.price_min = none → (normalizeProduct s p).priceMin = 0) ∧
    (p.price_max = none → (normalizeProduct s p).priceMax = 0) ∧
    (0 ≤ (p.price_min).getD 0 → (p.price_min).getD 0 ≤ (p.price_max).getD 0 →
      0 ≤ (normalizeProduct s p).priceMin ∧
        (normalizeProduct s p).priceMin ≤ (normalizeProduct s p).priceMax) := by
  refine ⟨rfl, rfl, ?_, ?_, ?_⟩
  · intro h
    simp [normalizeProduct, h]
  · intro h
    simp [normalizeProduct, h]
  · intro h1 h2
    exact ⟨h1, h2⟩

/-- Witness for the amended C7: a product with both price fields absent
normalizes to prices 0 with `0 ≤ priceMin ≤ priceMax`. -/
theorem normalized_price_defaults_witness :
    (normalizeProduct
        ⟨"Players C&C", "playerscandc", "https://playerscandc.com/", "t"⟩
        ⟨some true, some "Lightning Bolt", none, none, none, none, none⟩).priceMin
      = 0 ∧
    0 ≤ (normalizeProduct
        ⟨"Players C&C", "playerscandc", "https://playerscandc.com/", "t"⟩
        ⟨some true, some "Lightning Bolt", none, none, none, none, none⟩).priceMin ∧
    (normalizeProduct
        ⟨"Players C&C", "playerscandc", "https://playerscandc.com/", "t"⟩
        ⟨some true, some "Lightning Bolt", none, none, none, none, none⟩).priceMin
      ≤ (normalizeProduct
        ⟨"Players C&C", "playerscandc", "https://playerscandc.com/", "t"⟩
        ⟨some true, some "Lightning Bolt", none, none, none, none, none⟩).priceMax :=
  ⟨(normalized_price_defaults _ _).2.2.1 rfl,
   (normalized_price_defaults _ _).2.2.2.2 (by decide) (by decide)⟩

/-- C8: for every surviving product, the normalized result's product URL
is the store's base URL with any trailing slash stripped concatenated
with the product's relative path when the product supplies a (non-empty)
path, and the bare base URL otherwise; its image comes from the explicit
image field when that is a (non-empty) string and otherwise falls back to
the nested featured-image URL field; and its condition label is the
constant near-mint placeholder (spelled `NM` in the source).  The three
configured base URLs strip to their slash-free forms. -/
theorem normalizeProduct_url_image_condition (s : Store) (p : Product) :
    (∀ path : String, p.url = some path → path ≠ "" →
      (normalizeProduct s p).url = stripTrailingSlash s.url ++ path) ∧
    (p.url = none → (normalizeProduct s p).url = s.url) ∧
    (p.url = some "" → (normalizeProduct s p).url = s.url) ∧
    (∀ i : String, p.image = some i → i ≠ "" →
      (normalizeProduct s p).image = some i) ∧
    (p.image = none → (normalizeProduct s p).image = p.featured_image_url) ∧
    (p.image = some "" → (normalizeProduct s p).image = p.featured_image_url) ∧
    (normalizeProduct s p).condition = some "NM" ∧
    stores.map (fun st => stripTrailingSlash st.url) =
      ["https://playerscandc.com", "https://www.manalounge.ca",
       "https://lamoodcomics.ca"] := by
  have hne : ∀ t : String, t ≠ "" → t.data ≠ [] := by
    intro t ht hd
    apply ht
    cases t with
    | mk l =>
      cases hd
      rfl
  refine ⟨?_, ?_, ?_, ?_, ?_, ?_, rfl, by decide⟩
  · intro path hp hpe
    simp [normalizeProduct, jsStrTruthy, hp, hne path hpe]
  · intro hp
    simp [normalizeProduct, jsStrTruthy, hp]
  · intro hp
    simp [normalizeProduct, jsStrTruthy, hp]
  · intro i hi hie
    simp [normalizeProduct, jsStrTruthy, hi, hne i hie]
  · intro hi
    simp [normalizeProduct, jsStrTruthy, hi]
  · intro hi
    simp [normalizeProduct, jsStrTruthy, hi]

/-- Witness for C8: a product with relative path `/products/bolt` at the
first store resolves to the slash-normalized absolute URL, and with no
explicit image falls back to the featured-image URL. -/
theorem normalizeProduct_url_image_condition_witness :
    (normalizeProduct
        ⟨"Players C&C", "playerscandc", "https://playerscandc.com/", "t"⟩
        ⟨some true, some "Lightning Bolt", some 1, some 2,
          some "/products/bolt", none, some "img"⟩).url
      = "https://playerscandc.com/products/bolt" ∧
    (normalizeProduct
        ⟨"Players C&C", "playerscandc", "https://playerscandc.com/", "t"⟩
        ⟨some true, some "Lightning Bolt", some 1, some 2,
          some "/products/bolt", none, some "img"⟩).image = some "img" :=
  ⟨by rw [(normalizeProduct_url_image_condition _ _).1 "/products/bolt" rfl
      (by decide)]; decide,
   by rw [(normalizeProduct_url_image_condition _ _).2.2.2.2.1 rfl]⟩

/- ------------------------------------------------------------------
   Lemmas about the batch driver.
   ------------------------------------------------------------------ -/

theorem batchGo_results (f : String → CardSearchResult) (names : List String) :
    ∀ (acc : List CardSearchResult) (isFirst : Bool),
      (batchGo f acc isFirst names).2 = acc ++ names.map f := by
  induction names with
  | nil =>
    intro acc isFirst
    simp [batchGo]
  | cons name rest ih =>
    intro acc isFirst
    simp only [batchGo]
    rw [ih]
    simp

theorem batchGo_trace_spec (f : String → CardSearchResult)
    (names : List String) :
    ∀ done : List CardSearchResult,
      (batchGo f done done.isEmpty names).1 = batchScheduleSpec f done names := by
  induction names with
  | nil =>
    intro done
    rfl
  | cons name rest ih =>
    intro done
    have h2 : (done ++ [f name]).isEmpty = false := by simp
    have hih := ih (done ++ [f name])
    rw [h2] at hih
    simp only [batchGo, batchScheduleSpec, hih]
    by_cases hd : done = []
    · simp [hd]
    · have hd2 : done.isEmpty = false := by simp [hd]
      simp [hd, hd2]

theorem searchesOf_batchGo (f : String → CardSearchResult)
    (names : List String) :
    ∀ (acc : List CardSearchResult) (isFirst : Bool),
      searchesOf (batchGo f acc isFirst names).1 = names := by
  induction names with
  | nil =>
    intro acc isFirst
    rfl
  | cons name rest ih =>
    intro acc isFirst
    have hih := ih (acc ++ [f name]) false
    simp only [batchGo, searchesOf] at hih ⊢
    cases isFirst <;>
      simp [List.filterMap_cons, List.filterMap_append, hih]

theorem publishesOf_batchGo (f : String → CardSearchResult)
    (names : List String) :
    ∀ (acc : List CardSearchResult) (isFirst : Bool),
      publishesOf (batchGo f acc isFirst names).1 =
        (List.range names.length).map fun i => acc ++ (names.take (i + 1)).map f := by
  induction names with
  | nil =>
    intro acc isFirst
    rfl
  | cons name rest ih =>
    intro acc isFirst
    have hih := ih (acc ++ [f name]) false
    simp only [batchGo, publishesOf] at hih ⊢
    cases isFirst <;>
      simp [List.filterMap_cons, List.filterMap_append, hih,
        List.range_succ_eq_map, List.map_map, Function.comp,
        List.append_assoc]

/- ------------------------------------------------------------------
   Claim theorems for the batch driver and input guard.
   ------------------------------------------------------------------ -/

/-- C6: for every non-empty list of card names, the batch driver invokes
the single-card search once per name, strictly sequentially in input
order; its event trace is exactly the paced schedule — a 100 ms pause
before every card after the first and none before the first (the trace
begins with the first search), then the search invocation, then the
publication of the accumulated outcome sequence — so observers see the
1-element, 2-element, …, n-element outcome prefixes in order, and the
final value is one outcome per input name in input order. -/
theorem searchCardsBatch_contract (f : String → CardSearchResult)
    (names : List String) (h : names ≠ []) :
    (searchCardsBatch f names).2 = names.map f ∧
    (searchCardsBatch f names).1 = batchScheduleSpec f [] names ∧
    searchesOf (searchCardsBatch f names).1 = names ∧
    publishesOf (searchCardsBatch f names).1 =
      (List.range names.length).map (fun i => (names.take (i + 1)).map f) ∧
    (searchCardsBatch f names).1.head? = some (.search (names.headD "")) := by
  refine ⟨?_, ?_, searchesOf_batchGo f names [] true, ?_, ?_⟩
  · simpa [searchCardsBatch] using batchGo_results f names [] true
  · simpa [searchCardsBatch] using batchGo_trace_spec f names []
  · simpa [searchCardsBatch] using publishesOf_batchGo f names [] true
  · cases names with
    | nil => exact absurd rfl h
    | cons n rest => simp [searchCardsBatch, batchGo]

/-- Witness for C6: a concrete three-name batch invokes the single-card
search on exactly those names, in input order. -/
theorem searchCardsBatch_contract_witness :
    (["a", "b", "c"] ≠ ([] : List String)) ∧
    searchesOf (searchCardsBatch
        (fun n => ⟨n, SearchStatus.not_found, []⟩) ["a", "b", "c"]).1
      = ["a", "b", "c"] :=
  ⟨by decide,
   (searchCardsBatch_contract (fun n => ⟨n, SearchStatus.not_found, []⟩)
      ["a", "b", "c"] (by decide)).2.2.1⟩

/-- C9: in single-card mode, a whitespace-only search term is not
rejected by the empty-input guard: the trimmed term becomes the
one-element card list containing the empty string, the guard (which only
checks that the card list is non-empty) does not fire, and the batch
proceeds to search the empty string instead of surfacing the
`please enter a card name` error. -/
theorem singleMode_whitespace_not_guarded (term cardList : String)
    (h : jsTrim term = "") :
    cardsToSearch .single term cardList = [""] ∧
    emptyGuardFires (cardsToSearch .single term cardList) = false ∧
    (∀ f : String → CardSearchResult,
      searchesOf (searchCardsBatch f (cardsToSearch .single term cardList)).1
        = [""]) := by
  have hc : cardsToSearch .single term cardList = [""] := by
    simp [cardsToSearch, h]
  refine ⟨hc, ?_, fun f => ?_⟩
  · rw [hc]
    rfl
  · rw [hc]
    exact searchesOf_batchGo f [""] [] true

/-- Witness for C9: the three-space search term trims to the empty
string, is not rejected by the guard, and yields the one-element card
list containing the empty string. -/
theorem singleMode_whitespace_not_guarded_witness :
    (jsTrim "   " = "") ∧
    cardsToSearch SearchMode.single "   " "" = [""] ∧
    emptyGuardFires (cardsToSearch SearchMode.single "   " "") = false :=
  ⟨by decide,
   (singleMode_whitespace_not_guarded "   " "" (by decide)).1,
   (singleMode_whitespace_not_guarded "   " "" (by decide)).2.1⟩

end MtgSearch
